import Mathlib

/-!
Verification of the PricePoint stock data query engine
(`src/stock_data_query_engine.py`) against its specification.

The ingestion pipeline (`load_csv_data`) and the query layer
(`validate_date`, `validate_ticker`, `run_queries`) are shallowly embedded:

* a pandas `DataFrame` cell of the `Volume` column is modelled by its
  `pd.to_numeric(..., errors='coerce')` image, `Option ℤ` (`none` when the
  cell is not numeric);
* price cells are rationals (`ℚ`), the idealisation of the REAL columns;
* the permissive date parser `pd.to_datetime(..., errors='coerce')` followed
  by `strftime('%Y-%m-%d')` is modelled on its canonical fragment: a string
  already in valid `YYYY-MM-DD` calendar form parses to itself, any other
  string is modelled as unparseable (`none`).  `datetime.strptime` with
  format `'%Y-%m-%d'` (`validate_date`) is modelled by the same calendar
  check;
* the SQLite table `stocks` with primary key `(Date, Ticker)` is a list of
  records in storage (insertion) order; `INSERT OR IGNORE` is
  insert-if-absent on the key.
-/

/-- A persisted record of the `stocks` table
(`Date TEXT, Ticker TEXT, Open REAL, High REAL, Low REAL, Close REAL,
Volume INTEGER`, primary key `(Date, Ticker)`). -/
structure StockRow where
  Date : String
  Ticker : String
  Open : ℚ
  High : ℚ
  Low : ℚ
  Close : ℚ
  Volume : ℤ
  deriving Repr, DecidableEq

/-- One row of the CSV input after `pd.read_csv`.  The `Volume` cell is
modelled by its `pd.to_numeric(..., errors='coerce')` image: `some v` for a
numeric cell of value `v`, `none` when coercion fails (NaN). -/
structure RawRow where
  Date : String
  Ticker : String
  Open : ℚ
  High : ℚ
  Low : ℚ
  Close : ℚ
  Volume : Option ℤ
  deriving Repr, DecidableEq

/-- The CSV input table: its header (column names) and its rows projected to
the seven required columns.  Extra columns are never read by the code, so
they appear only in `columns`. -/
structure RawTable where
  columns : List String
  rows : List RawRow
  deriving Repr, DecidableEq

/-- Errors `load_csv_data` raises after the file-existence check:
`KeyError` on missing columns (the schema error, carrying the missing
column names) and `ValueError` on unparseable dates (the data error). -/
inductive IngestError where
  | schemaError (missing : List String)
  | dataError
  deriving Repr, DecidableEq

/-- What a successful `load_csv_data` reports: `cursor.rowcount` (rows
actually inserted; `INSERT OR IGNORE` counts ignored rows as 0) and the
count of rows skipped by the volume warning. -/
structure IngestReport where
  insertedCount : Nat
  skippedVolumeCount : Nat
  deriving Repr, DecidableEq

/-- Outcome of an ingestion call. -/
inductive IngestOutcome where
  | error (e : IngestError)
  | ok (report : IngestReport)
  deriving Repr, DecidableEq

/-- The store after an ingestion call together with its outcome.  On an
error the exception is raised before `executemany`, so the store field is
the unchanged input store. -/
structure IngestResult where
  store : List StockRow
  outcome : IngestOutcome
  deriving Repr, DecidableEq

/-- Gregorian leap year. -/
def isLeapYear (y : Nat) : Bool :=
  (y % 4 == 0 && y % 100 != 0) || y % 400 == 0

/-- Days of month `m` in year `y`. -/
def daysInMonth (y m : Nat) : Nat :=
  if m == 2 then (if isLeapYear y then 29 else 28)
  else if m == 4 || m == 6 || m == 9 || m == 11 then 30
  else 31

/-- Digits to the number they denote, most significant first. -/
def digitsVal (l : List Char) : Nat :=
  l.foldl (fun n c => n * 10 + (c.toNat - '0'.toNat)) 0

/-- Model of `validate_date`: `datetime.strptime(date_str, '%Y-%m-%d')`
succeeds.  Modelled on the canonical zero-padded `YYYY-MM-DD` form with a
real calendar check (month 1..12, day within the month, leap years). -/
def validate_date (s : String) : Bool :=
  match s.data with
  | [y1, y2, y3, y4, h1, m1, m2, h2, d1, d2] =>
      h1 == '-' && h2 == '-' &&
      (y1.isDigit && y2.isDigit && y3.isDigit && y4.isDigit &&
       m1.isDigit && m2.isDigit && d1.isDigit && d2.isDigit) &&
      (let y := digitsVal [y1, y2, y3, y4]
       let m := digitsVal [m1, m2]
       let d := digitsVal [d1, d2]
       Nat.ble 1 m && Nat.ble m 12 && Nat.ble 1 d && Nat.ble d (daysInMonth y m))
  | _ => false

/-- Model of `pd.to_datetime(s, errors='coerce').strftime('%Y-%m-%d')` on
one cell, restricted to the canonical fragment of the permissive parser: a
valid `YYYY-MM-DD` string normalises to itself, anything else is modelled
as unparseable (`NaT`, i.e. `none`). -/
def to_datetime (s : String) : Option String :=
  if validate_date s then some s else none

/-- The required column names (`required_columns` in `load_csv_data`). -/
def required_columns : List String :=
  ["Date", "Ticker", "Open", "High", "Low", "Close", "Volume"]

/-- A row passes the volume filter: its `Volume` coerced to a number
(`notna`) and non-negative (`>= 0`). -/
def validVolume (r : RawRow) : Bool :=
  match r.Volume with
  | some v => decide (0 ≤ v)
  | none => false

/-- The rows surviving the volume filter
(`df[df['Volume'].notna() & (df['Volume'] >= 0)]`). -/
def volumeFiltered (rows : List RawRow) : List RawRow :=
  rows.filter validVolume

/-- `len(invalid_volumes)`: rows whose volume is NaN after coercion or
negative. -/
def skippedVolume (rows : List RawRow) : Nat :=
  (rows.filter (fun r => !validVolume r)).length

/-- Normalise one surviving row: its date through the parser, its volume to
an integer (`astype('Int64')`).  `none` when the date fails to parse. -/
def normalizeRow (r : RawRow) : Option StockRow :=
  match to_datetime r.Date, r.Volume with
  | some d, some v => some ⟨d, r.Ticker, r.Open, r.High, r.Low, r.Close, v⟩
  | _, _ => none

/-- Normalise the dates of a whole row list; `none` as soon as any row's
date fails to parse (`df['Date'].isnull().any()` then `ValueError`). -/
def normalizeDates : List RawRow → Option (List StockRow)
  | [] => some []
  | r :: rs =>
      match normalizeRow r, normalizeDates rs with
      | some s, some ss => some (s :: ss)
      | _, _ => none

/-- The `(Date, Ticker)` primary key is already present in the store. -/
def hasKey (store : List StockRow) (d t : String) : Bool :=
  store.any (fun r => r.Date == d && r.Ticker == t)

/-- One `INSERT OR IGNORE` statement: appended in storage order when the
key is absent, silently ignored when it is present. -/
def insertIfAbsent (store : List StockRow) (r : StockRow) : List StockRow :=
  if hasKey store r.Date r.Ticker then store else store ++ [r]

/-- `cursor.executemany(insert_query, ...)`: the rows inserted one by one
in input order. -/
def insertRows (store : List StockRow) (rows : List StockRow) : List StockRow :=
  rows.foldl insertIfAbsent store

/-- The `missing` list of the schema check: the required columns absent
from the input's header (`[col for col in required_columns if col not in
df.columns]`); the `all(...)` guard holds exactly when this is empty. -/
def missingColumns (t : RawTable) : List String :=
  required_columns.filter (fun c => !t.columns.contains c)

/-- `load_csv_data` after the file-existence check, as a transformer of the
store: schema check, volume filter with warning count, date normalisation
(fatal), then `INSERT OR IGNORE` of every surviving row.  On an error the
exception is raised before `executemany`, so the store is returned
unchanged. -/
def load_csv_data (store : List StockRow) (t : RawTable) : IngestResult :=
  if (missingColumns t).isEmpty then
    match normalizeDates (volumeFiltered t.rows) with
    | none => ⟨store, .error .dataError⟩
    | some nr =>
        ⟨insertRows store nr,
          .ok ⟨(insertRows store nr).length - store.length, skippedVolume t.rows⟩⟩
  else ⟨store, .error (.schemaError (missingColumns t))⟩

/-- `validate_ticker`: `SELECT COUNT(*) FROM stocks WHERE Ticker = ?` is
positive. -/
def validate_ticker (store : List StockRow) (ticker : String) : Bool :=
  store.any (fun r => r.Ticker == ticker)

/-- The rows of the store for one ticker (`WHERE Ticker = ?`). -/
def rowsForTicker (store : List StockRow) (ticker : String) : List StockRow :=
  store.filter (fun r => r.Ticker == ticker)

/-- The `Close` column of a ticker's rows. -/
def closesFor (store : List StockRow) (ticker : String) : List ℚ :=
  (rowsForTicker store ticker).map (fun r => r.Close)

/-- Rational sum of a list. -/
def listSum (l : List ℚ) : ℚ :=
  l.foldl (fun a b => a + b) 0

/-- SQL `AVG` of a nonempty list of values. -/
def listAvg (l : List ℚ) : ℚ :=
  listSum l / (l.length : ℚ)

/-- Query 1, `SELECT AVG(Close) FROM stocks WHERE Ticker = ?`: `NULL`
(`none`) over an empty row set. -/
def avgClose (store : List StockRow) (ticker : String) : Option ℚ :=
  let cs := closesFor store ticker
  if cs.isEmpty then none else some (listAvg cs)

/-- Insert a row into a volume-descending list, after any row of equal or
larger volume (stable for ties). -/
def insertDescVolume (r : StockRow) : List StockRow → List StockRow
  | [] => [r]
  | x :: xs => if x.Volume < r.Volume then r :: x :: xs else x :: insertDescVolume r xs

/-- Stable sort of the rows by volume, descending. -/
def sortDescVolume (rows : List StockRow) : List StockRow :=
  rows.foldr insertDescVolume []

/-- Query 2, top 5 high-volume days:
`SELECT Date, Volume ... ORDER BY Volume DESC LIMIT 5`. -/
def top5HighVolume (store : List StockRow) (ticker : String) : List (String × ℤ) :=
  ((sortDescVolume (rowsForTicker store ticker)).take 5).map (fun r => (r.Date, r.Volume))

/-- The rows query 3 selects:
`FROM stocks WHERE Date = ? AND Close > Open`. -/
def priceIncreaseRows (store : List StockRow) (date : String) : List StockRow :=
  store.filter (fun r => r.Date == date && decide (r.Open < r.Close))

/-- Query 3, `SELECT Ticker, Open, Close` of the price-increase rows. -/
def priceIncreases (store : List StockRow) (date : String) : List (String × ℚ × ℚ) :=
  (priceIncreaseRows store date).map (fun r => (r.Ticker, r.Open, r.Close))

/-- Query 4 before the square root: the cross join of the ticker's rows
with the one-row subselect `sub` computing `AVG(Close)` once, then
`AVG((Close - sub.avg_close) * (Close - sub.avg_close))`.  `NULL` (`none`)
over an empty row set. -/
def volatilitySq (store : List StockRow) (ticker : String) : Option ℚ :=
  let cs := closesFor store ticker
  if cs.isEmpty then none
  else
    let m := listAvg cs
    some (listAvg (cs.map (fun c => (c - m) * (c - m))))

/-- Query 4 as printed: `SQRT` of the mean squared deviation. -/
noncomputable def volatility (store : List StockRow) (ticker : String) : Option ℝ :=
  (volatilitySq store ticker).map (fun q => Real.sqrt (q : ℝ))

/-- `SELECT COUNT(*) FROM stocks WHERE Date = ?`. -/
def countDate (store : List StockRow) (date : String) : Nat :=
  (store.filter (fun r => r.Date == date)).length

/-- What one call of `run_queries` produces: one of the three soft "no
data" returns, or the four aggregations (volatility represented by the
value under `SQRT`). -/
inductive QueryResult where
  | invalidTicker
  | invalidDateFormat
  | noDateData
  | analysis (avg : Option ℚ) (top5 : List (String × ℤ))
      (increases : List (String × ℚ × ℚ)) (volSq : Option ℚ)
  deriving Repr, DecidableEq

/-- `run_queries`: the three guards in source order, then the four
aggregations. -/
def run_queries (store : List StockRow) (ticker date : String) : QueryResult :=
  if !validate_ticker store ticker then .invalidTicker
  else if !validate_date date then .invalidDateFormat
  else if countDate store date == 0 then .noDateData
  else .analysis (avgClose store ticker) (top5HighVolume store ticker)
      (priceIncreases store date) (volatilitySq store ticker)

/-- A soft "no data" outcome of `run_queries` (an early `return` before any
aggregation). -/
def QueryResult.isNoData : QueryResult → Bool
  | .analysis _ _ _ _ => false
  | _ => true

/-- One iteration's worth of user input to the interactive loop in `main`:
the menu choice together with the follow-up line the chosen branch reads. -/
inductive MenuChoice where
  | predefined (ticker date : String)
  | customStatement (q : String)
  | plotTrend (ticker : String)
  | exitChoice
  | invalidChoice
  deriving Repr, DecidableEq

/-- How often the loop body reaches `cursor.close(); conn.close()` for a
given input sequence: option 4 and a custom statement `exit`
(case-insensitive) break the loop and reach the close; every other choice
continues; exhausted input raises `EOFError` out of `input()`, skipping the
close. -/
def loopCloseCount : List MenuChoice → Nat
  | [] => 0
  | .exitChoice :: _ => 1
  | .customStatement q :: rest =>
      if q.toLower == "exit" then 1 else loopCloseCount rest
  | .predefined _ _ :: rest => loopCloseCount rest
  | .plotTrend _ :: rest => loopCloseCount rest
  | .invalidChoice :: rest => loopCloseCount rest

/-- The input sequence reaches an explicit exit of the loop. -/
def reachesExit : List MenuChoice → Bool
  | [] => false
  | .exitChoice :: _ => true
  | .customStatement q :: rest => q.toLower == "exit" || reachesExit rest
  | .predefined _ _ :: rest => reachesExit rest
  | .plotTrend _ :: rest => reachesExit rest
  | .invalidChoice :: rest => reachesExit rest

/-- The ingestion call succeeded. -/
def IngestOutcome.isOk : IngestOutcome → Bool
  | .ok _ => true
  | .error _ => false

/-- How often `main` closes the connection it acquired: `load_csv_data`
is called outside any try/finally, so an ingestion exception propagates out
of `main` before the loop and the close is never executed; otherwise the
loop decides. -/
def mainCloseCount (store : List StockRow) (t : RawTable)
    (choices : List MenuChoice) : Nat :=
  match (load_csv_data store t).outcome with
  | .error _ => 0
  | .ok _ => loopCloseCount choices

/-- Two records collide on the `(Date, Ticker)` primary key. -/
def sameKey (a b : StockRow) : Prop :=
  a.Date = b.Date ∧ a.Ticker = b.Ticker

/-- The store satisfies the primary-key constraint: no two records share a
key. -/
def uniqueKeys (store : List StockRow) : Prop :=
  store.Pairwise (fun a b => ¬ sameKey a b)

/-- The normalised form of a row that passes both filters. -/
def normForced (r : RawRow) : StockRow :=
  ⟨r.Date, r.Ticker, r.Open, r.High, r.Low, r.Close, r.Volume.getD 0⟩

/-- The spec's arithmetic mean, written from the spec's words. -/
def specMean (l : List ℚ) : ℚ :=
  l.sum / l.length

/-- The spec's population variance, written from the spec's words:
`mean((close - mean_close)^2)` with the mean of the same list. -/
def specPopVariance (l : List ℚ) : ℚ :=
  specMean (l.map (fun c => (c - specMean l) ^ 2))

/-- A fully valid input row. -/
def rowGood : RawRow := ⟨"2023-01-01", "AAPL", 100, 110, 90, 105, some 1000⟩

/-- `rowGood` as persisted. -/
def stockGood : StockRow := ⟨"2023-01-01", "AAPL", 100, 110, 90, 105, 1000⟩

/-- A row whose date is unparseable and whose volume is negative. -/
def rowBadBoth : RawRow := ⟨"notadate", "MSFT", 50, 55, 45, 52, some (-1)⟩

/-- A row whose date is unparseable but whose volume is valid. -/
def rowBadDate : RawRow := ⟨"notadate", "GOOG", 30, 35, 25, 32, some 7⟩

/-- Input containing a valid row and a row with bad date and bad volume. -/
def tableC1 : RawTable := ⟨required_columns, [rowGood, rowBadBoth]⟩

/-- Input containing one row with bad date but valid volume. -/
def tableC1w : RawTable := ⟨required_columns, [rowBadDate]⟩

/-- A well-formed batch (with an extra, ignored column and an in-batch
duplicate key). -/
def tableC2 : RawTable :=
  ⟨required_columns ++ ["Adjusted"],
   [⟨"2023-02-01", "TSLA", 200, 210, 190, 205, some 500⟩,
    ⟨"2023-02-01", "TSLA", 201, 211, 191, 206, some 501⟩]⟩

/-- The normalised rows of `tableC2`. -/
def nrC2 : List StockRow :=
  [⟨"2023-02-01", "TSLA", 200, 210, 190, 205, 500⟩,
   ⟨"2023-02-01", "TSLA", 201, 211, 191, 206, 501⟩]

/-- A batch of 3 rows of which exactly 1 has invalid volume. -/
def tableC3 : RawTable :=
  ⟨required_columns,
   [⟨"2023-04-01", "AMZN", 95, 99, 91, 97, some 800⟩,
    ⟨"2023-04-02", "AMZN", 97, 102, 95, 101, none⟩,
    ⟨"2023-04-03", "AMZN", 101, 104, 99, 103, some 900⟩]⟩

/-- A store holding closes 10, 20, 30 for ticker `VOL`. -/
def storeC4 : List StockRow :=
  [⟨"2023-05-01", "VOL", 9, 11, 8, 10, 100⟩,
   ⟨"2023-05-02", "VOL", 19, 21, 18, 20, 200⟩,
   ⟨"2023-05-03", "VOL", 29, 31, 28, 30, 300⟩]

/-- A stored row whose close equals its open on the queried date. -/
def rowFlat : StockRow := ⟨"2023-03-01", "FLT", 100, 101, 99, 100, 400⟩

/-- A stored row whose close exceeds its open by one cent (100.01,
written as the reduced fraction 10001/100). -/
def rowUp : StockRow := ⟨"2023-03-01", "UPP", 100, 101, 99, mkRat 10001 100, 400⟩

/-- A store for the price-increase exactness check. -/
def storeC6 : List StockRow := [rowFlat, rowUp]

/-- A store holding one record, for the frame check. -/
def storeC8 : List StockRow := [⟨"2023-06-01", "IBM", 130, 135, 128, 132, 600⟩]

/-- A batch re-ingesting the `storeC8` key with different values. -/
def tableC8 : RawTable :=
  ⟨required_columns, [⟨"2023-06-01", "IBM", 1, 2, 0, 1, some 9⟩]⟩

/-- An input whose header misses the `Volume` column. -/
def tableC9 : RawTable :=
  ⟨["Date", "Ticker", "Open", "High", "Low", "Close"], []⟩

/-- A batch whose only bad-date row also has non-numeric volume. -/
def tableC10 : RawTable :=
  ⟨required_columns,
   [⟨"2023-07-01", "ORCL", 60, 62, 59, 61, some 700⟩,
    ⟨"julyfirst", "ORCL", 61, 63, 60, 62, none⟩]⟩

/-! ### Sanity checks on concrete inputs -/

example : validate_date "2023-01-01" = true := by decide

example : validate_date "2023-02-29" = false := by decide

example : validate_date "2024-02-29" = true := by decide

example : validate_date "notadate" = false := by decide

example : to_datetime "2023-13-05" = none := by decide

example : (load_csv_data []
    ⟨required_columns, [⟨"2023-01-01", "AAPL", 100, 110, 90, 105, some 1000⟩]⟩) =
    ⟨[⟨"2023-01-01", "AAPL", 100, 110, 90, 105, 1000⟩], .ok ⟨1, 0⟩⟩ := by decide

/-! ### Lemmas -/

theorem hasKey_iff (store : List StockRow) (d t : String) :
    hasKey store d t = true ↔ ∃ r ∈ store, r.Date = d ∧ r.Ticker = t := by
  simp [hasKey, List.any_eq_true, Bool.and_eq_true, beq_iff_eq]

theorem insertRows_cons (s : List StockRow) (r : StockRow) (rs : List StockRow) :
    insertRows s (r :: rs) = insertRows (insertIfAbsent s r) rs := rfl

theorem hasKey_append_single (s : List StockRow) (r : StockRow) (d t : String) :
    hasKey (s ++ [r]) d t = (hasKey s d t || (r.Date == d && r.Ticker == t)) := by
  simp [hasKey]

theorem hasKey_insertIfAbsent_of {s : List StockRow} {d t : String} (r : StockRow)
    (h : hasKey s d t = true) : hasKey (insertIfAbsent s r) d t = true := by
  unfold insertIfAbsent
  split
  · exact h
  · simp [hasKey_append_single, h]

theorem hasKey_insertIfAbsent_self (s : List StockRow) (r : StockRow) :
    hasKey (insertIfAbsent s r) r.Date r.Ticker = true := by
  unfold insertIfAbsent
  split
  · assumption
  · simp [hasKey_append_single]

theorem hasKey_insertRows_of {d t : String} (rows : List StockRow) :
    ∀ {s : List StockRow}, hasKey s d t = true →
      hasKey (insertRows s rows) d t = true := by
  induction rows with
  | nil => intro s h; exact h
  | cons r rs ih =>
      intro s h
      rw [insertRows_cons]
      exact ih (hasKey_insertIfAbsent_of r h)

theorem hasKey_insertRows_self (rows : List StockRow) :
    ∀ (s : List StockRow), ∀ r ∈ rows, hasKey (insertRows s rows) r.Date r.Ticker = true := by
  induction rows with
  | nil => intro s r hr; cases hr
  | cons a as ih =>
      intro s r hr
      rw [insertRows_cons]
      rcases List.mem_cons.mp hr with rfl | hr2
      · exact hasKey_insertRows_of as (hasKey_insertIfAbsent_self s r)
      · exact ih _ r hr2

theorem insertRows_eq_self {s : List StockRow} {rows : List StockRow}
    (h : ∀ r ∈ rows, hasKey s r.Date r.Ticker = true) : insertRows s rows = s := by
  induction rows with
  | nil => rfl
  | cons a as ih =>
      rw [insertRows_cons]
      have ha : insertIfAbsent s a = s := by
        unfold insertIfAbsent
        simp [h a (List.mem_cons_self a as)]
      rw [ha]
      exact ih (fun r hr => h r (List.mem_cons_of_mem a hr))

theorem mem_insertIfAbsent {a : StockRow} {s : List StockRow} (r : StockRow)
    (h : a ∈ s) : a ∈ insertIfAbsent s r := by
  unfold insertIfAbsent
  split
  · exact h
  · exact List.mem_append_left _ h

theorem mem_insertRows {a : StockRow} (rows : List StockRow) :
    ∀ {s : List StockRow}, a ∈ s → a ∈ insertRows s rows := by
  induction rows with
  | nil => intro s h; exact h
  | cons b bs ih =>
      intro s h
      rw [insertRows_cons]
      exact ih (mem_insertIfAbsent b h)

theorem uniqueKeys_insertIfAbsent {s : List StockRow} (r : StockRow)
    (h : uniqueKeys s) : uniqueKeys (insertIfAbsent s r) := by
  unfold insertIfAbsent
  split
  · exact h
  · rename_i hk
    rw [uniqueKeys, List.pairwise_append]
    refine ⟨h, List.pairwise_singleton _ _, ?_⟩
    intro a ha b hb hab
    have hb2 : b = r := by simpa using hb
    subst hb2
    have : hasKey s b.Date b.Ticker = true :=
      (hasKey_iff s b.Date b.Ticker).mpr ⟨a, ha, hab.1, hab.2⟩
    simp [this] at hk

theorem uniqueKeys_insertRows (rows : List StockRow) :
    ∀ {s : List StockRow}, uniqueKeys s → uniqueKeys (insertRows s rows) := by
  induction rows with
  | nil => intro s h; exact h
  | cons b bs ih =>
      intro s h
      rw [insertRows_cons]
      exact ih (uniqueKeys_insertIfAbsent b h)

theorem sameKey_symmetric : Symmetric (fun a b : StockRow => ¬ sameKey a b) := by
  intro a b h hk
  exact h ⟨hk.1.symm, hk.2.symm⟩

theorem uniqueKeys_unique {s : List StockRow} (hu : uniqueKeys s) {a b : StockRow}
    (ha : a ∈ s) (hb : b ∈ s) (hk : sameKey a b) : a = b := by
  by_contra hne
  exact (List.Pairwise.forall sameKey_symmetric hu ha hb hne) hk

theorem insertIfAbsent_fresh {s : List StockRow} {r : StockRow}
    (h : hasKey s r.Date r.Ticker = false) : insertIfAbsent s r = s ++ [r] := by
  unfold insertIfAbsent
  simp [h]

theorem length_insertRows_fresh (rows : List StockRow) :
    ∀ {s : List StockRow},
      (∀ r ∈ rows, hasKey s r.Date r.Ticker = false) →
      rows.Pairwise (fun a b => ¬ sameKey a b) →
      (insertRows s rows).length = s.length + rows.length := by
  induction rows with
  | nil => intro s _ _; rfl
  | cons a as ih =>
      intro s hfresh hnodup
      rw [insertRows_cons,
        insertIfAbsent_fresh (hfresh a (List.mem_cons_self a as))]
      obtain ⟨hhead, htail⟩ := List.pairwise_cons.mp hnodup
      have hf2 : ∀ r ∈ as, hasKey (s ++ [a]) r.Date r.Ticker = false := by
        intro r hr
        rw [hasKey_append_single, hfresh r (List.mem_cons_of_mem a hr)]
        have : ¬ (a.Date = r.Date ∧ a.Ticker = r.Ticker) := hhead r hr
        simp only [Bool.false_or, Bool.and_eq_false_iff, beq_eq_false_iff_ne, ne_eq]
        by_cases hD : a.Date = r.Date
        · exact Or.inr (fun hT => this ⟨hD, hT⟩)
        · exact Or.inl hD
      rw [ih hf2 htail]
      simp only [List.length_append, List.length_cons, List.length_nil]
      omega

theorem normalizeRow_eq_some {r : RawRow} (hv : validVolume r = true)
    (hd : validate_date r.Date = true) :
    normalizeRow r = some (normForced r) := by
  unfold normalizeRow normForced to_datetime
  cases hV : r.Volume with
  | none => simp [validVolume, hV] at hv
  | some v => simp [hd, hV]

theorem normalizeRow_eq_none {r : RawRow} (hd : to_datetime r.Date = none) :
    normalizeRow r = none := by
  unfold normalizeRow
  rw [hd]

theorem normalizeDates_eq_some {rows : List RawRow}
    (h : ∀ r ∈ rows, validVolume r = true ∧ validate_date r.Date = true) :
    normalizeDates rows = some (rows.map normForced) := by
  induction rows with
  | nil => rfl
  | cons a as ih =>
      have ha := h a (List.mem_cons_self a as)
      simp only [normalizeDates, normalizeRow_eq_some ha.1 ha.2,
        ih (fun r hr => h r (List.mem_cons_of_mem a hr)), List.map_cons]

theorem normalizeDates_eq_none {rows : List RawRow} {r : RawRow}
    (hr : r ∈ rows) (hn : normalizeRow r = none) : normalizeDates rows = none := by
  induction rows with
  | nil => cases hr
  | cons a as ih =>
      rcases List.mem_cons.mp hr with rfl | h2
      · simp [normalizeDates, hn]
      · cases normalizeRow a <;> simp [normalizeDates, ih h2]

theorem load_csv_data_schemaError {store : List StockRow} {t : RawTable}
    (h : (missingColumns t).isEmpty = false) :
    load_csv_data store t = ⟨store, .error (.schemaError (missingColumns t))⟩ := by
  unfold load_csv_data
  rw [h]
  rfl

theorem load_csv_data_dataError {store : List StockRow} {t : RawTable}
    (hs : (missingColumns t).isEmpty = true)
    (hn : normalizeDates (volumeFiltered t.rows) = none) :
    load_csv_data store t = ⟨store, .error .dataError⟩ := by
  unfold load_csv_data
  rw [hs, if_pos rfl, hn]

theorem load_csv_data_ok {store : List StockRow} {t : RawTable} {nr : List StockRow}
    (hs : (missingColumns t).isEmpty = true)
    (hn : normalizeDates (volumeFiltered t.rows) = some nr) :
    load_csv_data store t = ⟨insertRows store nr,
      .ok ⟨(insertRows store nr).length - store.length, skippedVolume t.rows⟩⟩ := by
  unfold load_csv_data
  rw [hs, if_pos rfl, hn]

/-- The store `load_csv_data` returns is the input store (error branches)
or the input store with some normalised rows inserted. -/
theorem load_csv_data_store_cases (store : List StockRow) (t : RawTable) :
    (load_csv_data store t).store = store ∨
    ∃ nr, normalizeDates (volumeFiltered t.rows) = some nr ∧
      (load_csv_data store t).store = insertRows store nr := by
  cases hs : (missingColumns t).isEmpty with
  | false =>
      rw [load_csv_data_schemaError hs]
      exact Or.inl rfl
  | true =>
      cases hn : normalizeDates (volumeFiltered t.rows) with
      | none =>
          rw [load_csv_data_dataError hs hn]
          exact Or.inl rfl
      | some nr =>
          rw [load_csv_data_ok hs hn]
          exact Or.inr ⟨nr, rfl, rfl⟩

theorem length_volumeFiltered_add_skipped (rows : List RawRow) :
    (volumeFiltered rows).length + skippedVolume rows = rows.length := by
  unfold volumeFiltered skippedVolume
  induction rows with
  | nil => rfl
  | cons a as ih =>
      cases h : validVolume a with
      | true => simp [List.filter_cons, h]; omega
      | false => simp [List.filter_cons, h]; omega

theorem foldl_add_acc (l : List ℚ) : ∀ a : ℚ, l.foldl (fun x y => x + y) a = a + l.sum := by
  induction l with
  | nil => intro a; simp
  | cons b bs ih =>
      intro a
      simp only [List.foldl_cons, List.sum_cons, ih (a + b)]
      ring

theorem listSum_eq_sum (l : List ℚ) : listSum l = l.sum := by
  unfold listSum
  rw [foldl_add_acc l 0, zero_add]

theorem listAvg_eq_specMean (l : List ℚ) : listAvg l = specMean l := by
  unfold listAvg specMean
  rw [listSum_eq_sum]

theorem volatilitySq_eq_spec (store : List StockRow) (ticker : String)
    (h : closesFor store ticker ≠ []) :
    volatilitySq store ticker = some (specPopVariance (closesFor store ticker)) := by
  unfold volatilitySq specPopVariance
  rw [if_neg (by simp [h])]
  show some (listAvg ((closesFor store ticker).map
      (fun c => (c - listAvg (closesFor store ticker)) *
        (c - listAvg (closesFor store ticker))))) = _
  have hmap : (closesFor store ticker).map
      (fun c => (c - listAvg (closesFor store ticker)) * (c - listAvg (closesFor store ticker))) =
      (closesFor store ticker).map
      (fun c => (c - specMean (closesFor store ticker)) ^ 2) := by
    apply List.map_congr_left
    intro c _
    rw [listAvg_eq_specMean]
    ring
  rw [hmap, listAvg_eq_specMean]

theorem to_datetime_validate {s : String} (h : to_datetime s ≠ none) :
    validate_date s = true := by
  by_cases hd : validate_date s
  · exact hd
  · simp [to_datetime, hd] at h

theorem loopCloseCount_eq (choices : List MenuChoice) :
    loopCloseCount choices = if reachesExit choices then 1 else 0 := by
  induction choices with
  | nil => rfl
  | cons c rest ih =>
      cases c with
      | predefined ticker date => simpa [loopCloseCount, reachesExit] using ih
      | plotTrend ticker => simpa [loopCloseCount, reachesExit] using ih
      | invalidChoice => simpa [loopCloseCount, reachesExit] using ih
      | exitChoice => rfl
      | customStatement q =>
          cases hq : q.toLower == "exit" with
          | true => simp [loopCloseCount, reachesExit, hq]
          | false => simpa [loopCloseCount, reachesExit, hq] using ih

/-- C1 (counterexample): the claim "if any row's date fails to parse,
ingest fails with DataError and zero rows are persisted" is false as
stated.  In the batch `tableC1` the row `rowBadBoth` has an unparseable
date, yet because its volume is also invalid the volume filter removes it
before date validation runs: the call succeeds, reports one skipped row,
and persists the other row. -/
theorem c1_counterexample :
    rowBadBoth ∈ tableC1.rows ∧ to_datetime rowBadBoth.Date = none ∧
    load_csv_data [] tableC1 = ⟨[stockGood], .ok ⟨1, 1⟩⟩ := by
  refine ⟨by decide, by decide, by decide⟩

/-- C1 (amended): if any row that survives the volume filter has an
unparseable date, ingestion fails with the data error (`ValueError`) and
the store is left exactly as it was — no partial commit. -/
theorem c1_dataError_store_unchanged (store : List StockRow) (t : RawTable)
    (r : RawRow) (hs : (missingColumns t).isEmpty = true)
    (hr : r ∈ volumeFiltered t.rows) (hd : to_datetime r.Date = none) :
    load_csv_data store t = ⟨store, .error .dataError⟩ :=
  load_csv_data_dataError hs (normalizeDates_eq_none hr (normalizeRow_eq_none hd))

/-- C1 witness: a batch holding one bad-date row with valid volume is
rejected with the data error and leaves a nonempty store unchanged. -/
theorem c1_witness :
    load_csv_data [stockGood] tableC1w = ⟨[stockGood], .error .dataError⟩ :=
  c1_dataError_store_unchanged [stockGood] tableC1w rowBadDate
    (by decide) (by decide) (by decide)

/-- C2: ingesting a well-formed batch (schema complete, all surviving
dates parseable) a second time returns the store unchanged — in particular
with exactly the same row count — and succeeds, inserting 0 rows: the
`INSERT OR IGNORE` keyed on `(Date, Ticker)` silently ignores every
duplicate key, including duplicates within the same input. -/
theorem c2_idempotent (store : List StockRow) (t : RawTable)
    (nr : List StockRow) (hs : (missingColumns t).isEmpty = true)
    (hn : normalizeDates (volumeFiltered t.rows) = some nr) :
    (load_csv_data (load_csv_data store t).store t).store =
      (load_csv_data store t).store ∧
    (load_csv_data (load_csv_data store t).store t).outcome =
      .ok ⟨0, skippedVolume t.rows⟩ := by
  have h1 : load_csv_data store t = ⟨insertRows store nr,
      .ok ⟨(insertRows store nr).length - store.length, skippedVolume t.rows⟩⟩ :=
    load_csv_data_ok hs hn
  rw [h1]
  show (load_csv_data (insertRows store nr) t).store = insertRows store nr ∧
    (load_csv_data (insertRows store nr) t).outcome = .ok ⟨0, skippedVolume t.rows⟩
  rw [load_csv_data_ok hs hn]
  have hself : insertRows (insertRows store nr) nr = insertRows store nr :=
    insertRows_eq_self (fun r hr => hasKey_insertRows_self nr store r hr)
  rw [hself]
  exact ⟨rfl, by simp⟩

/-- C2 witness: re-ingesting `tableC2` (which also carries an extra column
and an in-batch duplicate key) leaves the one-row store unchanged and
reports 0 insertions. -/
theorem c2_witness :
    (load_csv_data (load_csv_data [] tableC2).store tableC2).store =
      (load_csv_data [] tableC2).store ∧
    (load_csv_data (load_csv_data [] tableC2).store tableC2).outcome =
      .ok ⟨0, skippedVolume tableC2.rows⟩ :=
  c2_idempotent [] tableC2 nrC2 (by decide) (by decide)

/-- C3: for a batch of `N` rows of which exactly `k` fail the volume check
(all dates valid, no key collisions with the store or within the batch),
ingestion succeeds, persists exactly `N - k` rows, and reports the skipped
count `k` as the non-fatal warning. -/
theorem c3_volume_filter_row_level (store : List StockRow) (t : RawTable) (k : Nat)
    (hs : (missingColumns t).isEmpty = true)
    (hk : skippedVolume t.rows = k)
    (hdates : ∀ r ∈ t.rows, validate_date r.Date = true)
    (hfresh : ∀ r ∈ volumeFiltered t.rows, hasKey store r.Date r.Ticker = false)
    (hnodup : (volumeFiltered t.rows).Pairwise
      (fun a b => ¬ (a.Date = b.Date ∧ a.Ticker = b.Ticker))) :
    (load_csv_data store t).outcome = .ok ⟨t.rows.length - k, k⟩ ∧
    (load_csv_data store t).store.length = store.length + (t.rows.length - k) := by
  have hall : ∀ r ∈ volumeFiltered t.rows,
      validVolume r = true ∧ validate_date r.Date = true := by
    intro r hr
    exact ⟨(List.mem_filter.mp hr).2, hdates r (List.mem_filter.mp hr).1⟩
  have hn := normalizeDates_eq_some hall
  have hfresh2 : ∀ x ∈ (volumeFiltered t.rows).map normForced,
      hasKey store x.Date x.Ticker = false := by
    intro x hx
    obtain ⟨r, hr, rfl⟩ := List.mem_map.mp hx
    exact hfresh r hr
  have hnodup2 : ((volumeFiltered t.rows).map normForced).Pairwise
      (fun a b => ¬ sameKey a b) := by
    rw [List.pairwise_map]
    exact hnodup.imp (fun h hk2 => h ⟨hk2.1, hk2.2⟩)
  have hlen := length_insertRows_fresh ((volumeFiltered t.rows).map normForced)
    hfresh2 hnodup2
  have hcount : (volumeFiltered t.rows).length + k = t.rows.length := by
    rw [← hk]
    exact length_volumeFiltered_add_skipped t.rows
  rw [load_csv_data_ok hs hn]
  have hmaplen : ((volumeFiltered t.rows).map normForced).length =
      (volumeFiltered t.rows).length := List.length_map _ _
  constructor
  · show IngestOutcome.ok
        ⟨(insertRows store ((volumeFiltered t.rows).map normForced)).length - store.length,
         skippedVolume t.rows⟩ = IngestOutcome.ok ⟨t.rows.length - k, k⟩
    rw [hlen, hk, hmaplen, Nat.add_sub_cancel_left]
    have hfin : (volumeFiltered t.rows).length = t.rows.length - k := by omega
    rw [hfin]
  · show (insertRows store ((volumeFiltered t.rows).map normForced)).length =
        store.length + (t.rows.length - k)
    rw [hlen, hmaplen]
    omega

/-- C3 witness: a batch of 3 rows with exactly 1 invalid volume persists
2 rows into the empty store and reports 1 skipped. -/
theorem c3_witness :
    (load_csv_data [] tableC3).outcome = .ok ⟨2, 1⟩ ∧
    (load_csv_data [] tableC3).store.length = 0 + 2 :=
  c3_volume_filter_row_level [] tableC3 1 (by decide) (by decide)
    (by decide) (by decide) (by decide)

/-- C4: for a ticker with at least one stored row, the average is SQL
`AVG(Close)` and the volatility is the square root of the population
variance `mean((close - mean_close)^2)` — both computed over the very same
row set `closesFor store ticker`, with the mean appearing once through the
one-row subselect (`volatilitySq` binds it a single time). -/
theorem c4_volatility_population_stddev (store : List StockRow) (ticker : String)
    (h : closesFor store ticker ≠ []) :
    avgClose store ticker = some (specMean (closesFor store ticker)) ∧
    volatility store ticker =
      some (Real.sqrt ((specPopVariance (closesFor store ticker) : ℚ) : ℝ)) := by
  constructor
  · unfold avgClose
    rw [if_neg (by simp [h]), listAvg_eq_specMean]
  · unfold volatility
    rw [volatilitySq_eq_spec store ticker h]
    rfl

/-- C4 witness: for stored closes 10, 20, 30 the average closing price is
20 and the volatility is `sqrt(200/3)` (`≈ 8.165`). -/
theorem c4_witness :
    avgClose storeC4 "VOL" = some 20 ∧
    volatility storeC4 "VOL" = some (Real.sqrt ((200 : ℝ) / 3)) := by
  have h := c4_volatility_population_stddev storeC4 "VOL" (by decide)
  have hcl : closesFor storeC4 "VOL" = [(10 : ℚ), 20, 30] := by decide
  refine ⟨?_, ?_⟩
  · rw [h.1, hcl, show specMean [(10 : ℚ), 20, 30] = 20 from by norm_num [specMean]]
  · rw [h.2, hcl, show specPopVariance [(10 : ℚ), 20, 30] = 200 / 3 from by
      norm_num [specPopVariance, specMean]]
    norm_num

/-- C5: `run_queries` returns a soft "no data" result — without running
any aggregation — exactly when the ticker is unknown, the date string is
not valid `YYYY-MM-DD`, or the date has zero rows; `validate_ticker` is
false exactly when no stored record has the ticker; and when all three
guards pass, the result carries all four aggregations. -/
theorem c5_soft_fail_guards (store : List StockRow) (ticker date : String) :
    (validate_ticker store ticker = false ↔ ∀ r ∈ store, r.Ticker ≠ ticker) ∧
    ((run_queries store ticker date).isNoData = true ↔
      (validate_ticker store ticker = false ∨ validate_date date = false ∨
        countDate store date = 0)) ∧
    (validate_ticker store ticker = true → validate_date date = true →
      countDate store date ≠ 0 →
      run_queries store ticker date =
        .analysis (avgClose store ticker) (top5HighVolume store ticker)
          (priceIncreases store date) (volatilitySq store ticker)) := by
  refine ⟨?_, ?_, ?_⟩
  · rw [validate_ticker, List.any_eq_false]
    simp
  · cases hT : validate_ticker store ticker with
    | false => simp [run_queries, hT, QueryResult.isNoData]
    | true =>
        cases hD : validate_date date with
        | false => simp [run_queries, hT, hD, QueryResult.isNoData]
        | true =>
            by_cases hC : countDate store date = 0
            · simp [run_queries, hT, hD, hC, QueryResult.isNoData]
            · simp [run_queries, hT, hD, hC, QueryResult.isNoData]
  · intro h1 h2 h3
    simp [run_queries, h1, h2, h3]

/-- C6: a stored row belongs to the price-increase set for a queried date
exactly when its date equals the queried date and its close is strictly
greater than its open — rows of every ticker are eligible.  Concretely, on
`2023-03-01` the row with open 100 and close 100 is excluded while the row
with close 100.01 is included, and the query projects `(Ticker, Open,
Close)`. -/
theorem c6_price_increase_strict :
    (∀ (store : List StockRow) (date : String) (r : StockRow),
      r ∈ priceIncreaseRows store date ↔
        (r ∈ store ∧ r.Date = date ∧ r.Open < r.Close)) ∧
    rowFlat ∉ priceIncreaseRows storeC6 "2023-03-01" ∧
    rowUp ∈ priceIncreaseRows storeC6 "2023-03-01" ∧
    priceIncreases storeC6 "2023-03-01" = [("UPP", 100, 100.01)] := by
  refine ⟨?_, by decide, by decide, ?_⟩
  · intro store date r
    simp [priceIncreaseRows, List.mem_filter, and_assoc]
  · rw [show priceIncreases storeC6 "2023-03-01" =
        [("UPP", 100, mkRat 10001 100)] from by decide]
    norm_num [Rat.mkRat_eq_div]

/-- C7: ingestion fails with the schema error naming exactly the missing
required columns iff some required column is absent from the header (the
`missing` list is empty iff every required column is present); and two
inputs whose headers both contain every required column are treated
identically — extra columns are ignored. -/
theorem c7_schema_check (store : List StockRow) (t : RawTable) :
    (missingColumns t = [] ↔ ∀ c ∈ required_columns, c ∈ t.columns) ∧
    (missingColumns t ≠ [] →
      load_csv_data store t = ⟨store, .error (.schemaError (missingColumns t))⟩) ∧
    (∀ m, (load_csv_data store t).outcome = .error (.schemaError m) →
      missingColumns t ≠ []) ∧
    (∀ (cols1 cols2 : List String) (rows : List RawRow),
      (∀ c ∈ required_columns, c ∈ cols1) → (∀ c ∈ required_columns, c ∈ cols2) →
      load_csv_data store ⟨cols1, rows⟩ = load_csv_data store ⟨cols2, rows⟩) := by
  refine ⟨?_, ?_, ?_, ?_⟩
  · rw [missingColumns, List.filter_eq_nil_iff]
    simp
  · intro h
    exact load_csv_data_schemaError (by simpa [List.isEmpty_iff] using h)
  · intro m h hnil
    have hs : (missingColumns t).isEmpty = true := by simp [List.isEmpty_iff, hnil]
    cases hn : normalizeDates (volumeFiltered t.rows) with
    | none => rw [load_csv_data_dataError hs hn] at h; cases h
    | some nr => rw [load_csv_data_ok hs hn] at h; cases h
  · intro cols1 cols2 rows h1 h2
    have e1 : (missingColumns ⟨cols1, rows⟩).isEmpty = true := by
      simp only [List.isEmpty_iff, missingColumns, List.filter_eq_nil_iff]
      intro c hc
      simp only [Bool.not_eq_true', Bool.not_eq_false]
      simp
      exact h1 c hc
    have e2 : (missingColumns ⟨cols2, rows⟩).isEmpty = true := by
      simp only [List.isEmpty_iff, missingColumns, List.filter_eq_nil_iff]
      intro c hc
      simp only [Bool.not_eq_true', Bool.not_eq_false]
      simp
      exact h2 c hc
    cases hn : normalizeDates (volumeFiltered rows) with
    | none => rw [load_csv_data_dataError e1 hn, load_csv_data_dataError e2 hn]
    | some nr => rw [load_csv_data_ok e1 hn, load_csv_data_ok e2 hn]

/-- C8: a stored record survives any subsequent ingestion call untouched:
it is still in the store, and any record of the resulting store carrying
its `(Date, Ticker)` key is that very record, fields included — duplicate
keys in a later batch are dropped by `INSERT OR IGNORE`, never overwrite,
and nothing updates a record in place. -/
theorem c8_records_never_overwritten (store : List StockRow) (t : RawTable)
    (rec : StockRow) (hu : uniqueKeys store) (hm : rec ∈ store) :
    rec ∈ (load_csv_data store t).store ∧
    uniqueKeys (load_csv_data store t).store ∧
    ∀ r2 ∈ (load_csv_data store t).store, sameKey r2 rec → r2 = rec := by
  rcases load_csv_data_store_cases store t with h | ⟨nr, _, h⟩
  · rw [h]
    exact ⟨hm, hu, fun r2 h2 hk => uniqueKeys_unique hu h2 hm hk⟩
  · rw [h]
    have hm2 := mem_insertRows nr hm
    have hu2 := uniqueKeys_insertRows nr hu
    exact ⟨hm2, hu2, fun r2 h2 hk => uniqueKeys_unique hu2 h2 hm2 hk⟩

/-- C8 witness: after re-ingesting the key of the stored `IBM` record with
different open/high/low/close/volume values, the stored record is still
present and is the only record with its key. -/
theorem c8_witness :
    storeC8.get ⟨0, by decide⟩ ∈ (load_csv_data storeC8 tableC8).store ∧
    uniqueKeys (load_csv_data storeC8 tableC8).store ∧
    ∀ r2 ∈ (load_csv_data storeC8 tableC8).store,
      sameKey r2 (storeC8.get ⟨0, by decide⟩) → r2 = storeC8.get ⟨0, by decide⟩ :=
  c8_records_never_overwritten storeC8 tableC8 (storeC8.get ⟨0, by decide⟩)
    (by simp [uniqueKeys, storeC8]) (by decide)

/-- C9 (counterexample): the claim that the connection is released exactly
once on every exit path is false: when ingestion fails (here, a missing
`Volume` column) the exception propagates out of `main` before the loop
and `conn.close()` is never executed, even though the user input would
have exited cleanly. -/
theorem c9_counterexample :
    (load_csv_data [] tableC9).outcome = .error (.schemaError ["Volume"]) ∧
    reachesExit [MenuChoice.exitChoice] = true ∧
    mainCloseCount [] tableC9 [MenuChoice.exitChoice] = 0 := by
  refine ⟨by decide, by decide, by decide⟩

/-- C9 (amended): `main` closes the connection at most once, and exactly
once precisely when ingestion succeeds and the input reaches an explicit
exit (menu option 4, or a custom statement `exit`); on ingestion failure or
exhausted input the explicit release is skipped. -/
theorem c9_close_at_most_once (store : List StockRow) (t : RawTable)
    (choices : List MenuChoice) :
    mainCloseCount store t choices ≤ 1 ∧
    (mainCloseCount store t choices = 1 ↔
      ((load_csv_data store t).outcome.isOk = true ∧ reachesExit choices = true)) := by
  unfold mainCloseCount
  cases (load_csv_data store t).outcome with
  | error e => simp [IngestOutcome.isOk]
  | ok rep =>
      rw [loopCloseCount_eq]
      cases hx : reachesExit choices with
      | true => simp [IngestOutcome.isOk, hx]
      | false => simp [IngestOutcome.isOk, hx]

/-- C10: the volume filter runs before date validation, so a batch in
which every unparseable-date row also fails the volume check ingests
successfully: no `ValueError` is raised, those rows are counted only in
the skipped-volume warning, and every surviving row's key is persisted. -/
theorem c10_volume_filter_shields_dates (store : List StockRow) (t : RawTable)
    (hs : (missingColumns t).isEmpty = true)
    (hshield : ∀ r ∈ t.rows, to_datetime r.Date = none → validVolume r = false) :
    ∃ rep, (load_csv_data store t).outcome = .ok rep ∧
      rep.skippedVolumeCount = skippedVolume t.rows ∧
      ∀ r ∈ volumeFiltered t.rows,
        hasKey (load_csv_data store t).store r.Date r.Ticker = true := by
  have hall : ∀ r ∈ volumeFiltered t.rows,
      validVolume r = true ∧ validate_date r.Date = true := by
    intro r hr
    have hv : validVolume r = true := (List.mem_filter.mp hr).2
    refine ⟨hv, to_datetime_validate ?_⟩
    intro hnone
    rw [hshield r (List.mem_filter.mp hr).1 hnone] at hv
    cases hv
  have hn := normalizeDates_eq_some hall
  rw [load_csv_data_ok hs hn]
  refine ⟨_, rfl, rfl, ?_⟩
  intro r hr
  exact hasKey_insertRows_self ((volumeFiltered t.rows).map normForced) store
    (normForced r) (List.mem_map_of_mem normForced hr)

/-- C10 witness: in `tableC10` the only bad-date row also has non-numeric
volume; ingestion succeeds, reports 1 skipped row, and the surviving row's
key is persisted. -/
theorem c10_witness :
    ∃ rep, (load_csv_data [] tableC10).outcome = .ok rep ∧
      rep.skippedVolumeCount = skippedVolume tableC10.rows ∧
      ∀ r ∈ volumeFiltered tableC10.rows,
        hasKey (load_csv_data [] tableC10).store r.Date r.Ticker = true :=
  c10_volume_filter_shields_dates [] tableC10 (by decide) (by decide)
